import Mathlib

/-!
Shallow embedding of the stock-analysis repository (a serverless request
router `lambda_function.py` and an offline batch fetcher
`scripts/fetch_prices.py`).

Python floats are modelled as `PVal`: either an honest rational number or
the IEEE NaN value (`PVal.nan`), which in Python is truthy, unequal to
itself, and incomparable.  A `null` JSON entry in a price array is
modelled as `none : Option PVal`.  Division by zero raises
`ZeroDivisionError` in Python; callers of the modelled division receive
`none` for that outcome (the source wraps every fetch in a catch-all
`except` that converts any exception into an absence result).

The network boundary is modelled as an `Upstream` oracle value: the body
of an `except`-guarded fetch receives either a transport error, an HTTP
error status, malformed JSON, or a parsed payload.
-/

/-- A Python float value: a rational or NaN. -/
inductive PVal where
  | nan : PVal
  | num : ℚ → PVal
deriving DecidableEq

/-- Python `x > y` on floats: any comparison involving NaN is `False`. -/
def pyGt : PVal → PVal → Bool
  | PVal.num a, PVal.num b => decide (b < a)
  | _, _ => false

/-- Python `x < y` on floats: any comparison involving NaN is `False`. -/
def pyLt : PVal → PVal → Bool
  | PVal.num a, PVal.num b => decide (a < b)
  | _, _ => false

/-- Python `max(x, *xs)`: keep the current maximum unless a later item
compares strictly greater. -/
def pymax (x : PVal) (xs : List PVal) : PVal :=
  xs.foldl (fun m a => if pyGt a m then a else m) x

/-- Python `min(x, *xs)`. -/
def pymin (x : PVal) (xs : List PVal) : PVal :=
  xs.foldl (fun m a => if pyLt a m then a else m) x

/-- Python float subtraction; NaN propagates. -/
def pySub : PVal → PVal → PVal
  | PVal.num a, PVal.num b => PVal.num (a - b)
  | _, _ => PVal.nan

/-- Python float multiplication; NaN propagates. -/
def pyMul : PVal → PVal → PVal
  | PVal.num a, PVal.num b => PVal.num (a * b)
  | _, _ => PVal.nan

/-- Python float division.  Dividing by `0.0` raises `ZeroDivisionError`
(modelled as `none`), even when the dividend is NaN; otherwise NaN
propagates. -/
def pyDiv (x y : PVal) : Option PVal :=
  match x, y with
  | PVal.num a, PVal.num b => if b = 0 then none else some (PVal.num (a / b))
  | PVal.nan, PVal.num b => if b = 0 then none else some PVal.nan
  | _, PVal.nan => some PVal.nan

/-- Round a rational to the nearest integer, ties to even (the rounding
used by Python `round`). -/
def roundHalfEven (q : ℚ) : ℤ :=
  if q - ⌊q⌋ < 1 / 2 then ⌊q⌋
  else if 1 / 2 < q - ⌊q⌋ then ⌊q⌋ + 1
  else if 2 ∣ ⌊q⌋ then ⌊q⌋ else ⌊q⌋ + 1

/-- Python `round(q, 2)` on a rational. -/
def round2 (q : ℚ) : ℚ := (roundHalfEven (q * 100) : ℚ) / 100

/-- Python `round(x, 2)` on a float: `round(nan, 2)` is NaN. -/
def pyRound2 : PVal → PVal
  | PVal.nan => PVal.nan
  | PVal.num q => PVal.num (round2 q)

/-- The summary statistics block built by both fetchers
(`current_price`, `year_high`, `year_low`, `year_change_pct`,
`data_points`). -/
structure StockSummary where
  current_price : PVal
  year_high : PVal
  year_low : PVal
  year_change_pct : PVal
  data_points : ℕ
deriving DecidableEq

/-- The chart-building loop of `get_stock_price_yfinance_v8`
(lambda_function.py lines 65-85): iterate over the indices of the
timestamp array; skip index `i` when `i >= len(prices)` (once the price
list is exhausted every later index is skipped) or when `prices[i] is
None`; otherwise emit the (timestamp, price) pair.  Only `None` is
skipped — a NaN price is kept. -/
def buildChartV8 : List ℤ → List (Option PVal) → List (ℤ × PVal)
  | [], _ => []
  | _ :: _, [] => []
  | _ :: ts, none :: ps => buildChartV8 ts ps
  | t :: ts, some v :: ps => (t, v) :: buildChartV8 ts ps

/-- The reduce step of `get_stock_price_yfinance_v8` (lambda_function.py
lines 93-101) as a function of `valid_prices`: `None` when the list is
empty (the `if not valid_prices` guard) or when computing the percent
change raises `ZeroDivisionError` (first price `0.0`, caught by the
enclosing `except` which returns `None`).  `year_change_pct` is the
integer `0` when there are fewer than two points. -/
def summaryV8 : List PVal → Option StockSummary
  | [] => none
  | p :: ps =>
    let current := List.getLastD ps p
    let changeOpt : Option PVal :=
      if ps = [] then some (PVal.num 0)
      else (pyDiv (pySub current p) p).map (fun r => pyRound2 (pyMul r (PVal.num 100)))
    changeOpt.map (fun c =>
      { current_price := current
        year_high := pymax p ps
        year_low := pymin p ps
        year_change_pct := c
        data_points := ps.length + 1 })

/-- The per-row filter of the offline fetcher (fetch_prices.py line 50):
`if not row['Close'] or row['Close'] != row['Close']: continue`.  A zero
close is falsy and dropped; a NaN close is truthy but fails the
self-equality test and is dropped; every other number is kept. -/
def fetchKeep : PVal → Option ℚ
  | PVal.nan => none
  | PVal.num q => if q = 0 then none else some q

/-- The chart-building loop of the offline fetcher (fetch_prices.py
lines 47-56): one row per history entry, dropping rows whose close is
falsy or NaN. -/
def buildChartFetch : List (ℤ × PVal) → List (ℤ × ℚ)
  | [] => []
  | (t, c) :: rows =>
    match fetchKeep c with
    | none => buildChartFetch rows
    | some q => (t, q) :: buildChartFetch rows

/-- The reduce step of the offline fetcher (fetch_prices.py lines 63-78)
as a function of the kept close prices: `none` when the list is empty
(the `if not chart_data` guard fired earlier) or when the percent-change
division raises `ZeroDivisionError` (first price zero — unreachable from
`buildChartFetch`, whose output never contains zero; the enclosing
per-ticker `except` records the ticker as failed).  Unlike the router's
fetcher there is no length guard on the percent change. -/
def summaryFetch : List ℚ → Option StockSummary
  | [] => none
  | p :: ps =>
    if p = 0 then none
    else
      let current := List.getLastD ps p
      some
        { current_price := PVal.num current
          year_high := PVal.num (ps.foldl max p)
          year_low := PVal.num (ps.foldl min p)
          year_change_pct := PVal.num (round2 (((current - p) / p) * 100))
          data_points := ps.length + 1 }

/-- Outcome of one upstream HTTP exchange, as seen by the body of an
`except`-guarded fetch: a transport/timeout error (`urllib.error.URLError`),
a non-2xx status (`urllib.error.HTTPError`), a JSON decode failure, or a
successfully parsed payload. -/
inductive Upstream (α : Type) where
  | transportError : Upstream α
  | httpError : ℕ → Upstream α
  | malformedJSON : Upstream α
  | ok : α → Upstream α

/-- The first element of `data['chart']['result']` in the chart
response: the optional `meta.shortName`, the `timestamp` array, and the
`indicators.quote[0].close` array (entries may be `null`). -/
structure QuoteBlock where
  shortName : Option String
  timestamp : List ℤ
  close : List (Option PVal)
deriving DecidableEq

/-- A parsed chart response body; `result = none` models a body where
`'chart' not in data or 'result' not in data['chart']`. -/
structure ChartResponse where
  result : Option (List QuoteBlock)
deriving DecidableEq

/-- The successful return value of `get_stock_price_yfinance_v8`: the
chart rows, the summary statistics, and `short_name`
(`meta.get('shortName', ticker)`). -/
structure FetchResult where
  data : List (ℤ × PVal)
  summary : StockSummary
  short_name : String
deriving DecidableEq

/-- `get_stock_price_yfinance_v8` (lambda_function.py lines 11-111) as a
function of the upstream outcome.  Every failure branch — the three
`except` clauses, the shape checks, empty `timestamp`/`close` arrays, an
empty valid-price list, and a `ZeroDivisionError` in the reduce — yields
`None`.  The `interval` argument selects only the URL and the timestamp
display format, which are not modelled; chart rows carry the raw epoch
timestamp. -/
def get_stock_price_yfinance_v8 (ticker : String) (_interval : String)
    (u : Upstream ChartResponse) : Option FetchResult :=
  match u with
  | Upstream.transportError => none
  | Upstream.httpError _ => none
  | Upstream.malformedJSON => none
  | Upstream.ok data =>
    match data.result with
    | none => none
    | some [] => none
    | some (quote :: _) =>
      if quote.timestamp = [] then none
      else if quote.close = [] then none
      else
        let chart := buildChartV8 quote.timestamp quote.close
        let validPrices := chart.map Prod.snd
        if validPrices = [] then none
        else
          (summaryV8 validPrices).map (fun s =>
            { data := chart
              summary := s
              short_name := quote.shortName.getD ticker })

/-- Python `s.endswith(suff)`. -/
def pyEndsWith (s suff : String) : Bool :=
  List.isSuffixOf suff.data s.data

/-- One entry of the upstream search response's `quotes` array; a field
is `none` when the key is absent. -/
structure SearchQuote where
  symbol : String
  shortname : Option String
  longname : Option String
  typeDisp : Option String
  exchange : Option String
deriving DecidableEq

/-- A parsed search response body (`data.get('quotes', [])`). -/
structure SearchResponse where
  quotes : List SearchQuote
deriving DecidableEq

/-- One emitted search result (lambda_function.py lines 138-143). -/
structure SearchResult where
  symbol : String
  name : String
  type : String
  exchange : String
deriving DecidableEq

/-- The per-quote projection of `search_ticker`: name prefers
`shortname`, falls back to `longname`, falls back to the symbol; `type`
falls back to `"Stock"`; `exchange` falls back to `""`. -/
def mkSearchEntry (q : SearchQuote) : SearchResult :=
  { symbol := q.symbol
    name := q.shortname.getD (q.longname.getD q.symbol)
    type := q.typeDisp.getD "Stock"
    exchange := q.exchange.getD "" }

/-- The filtering loop of `search_ticker` (lambda_function.py lines
134-143): keep exactly the quotes whose symbol ends with `".T"`. -/
def searchFilter : List SearchQuote → List SearchResult
  | [] => []
  | q :: qs =>
    if pyEndsWith q.symbol ".T" then mkSearchEntry q :: searchFilter qs
    else searchFilter qs

/-- `search_ticker` (lambda_function.py lines 114-149) as a function of
the upstream outcome: any failure yields the empty list (the catch-all
`except` at lines 147-149). -/
def search_ticker (u : Upstream SearchResponse) : List SearchResult :=
  match u with
  | Upstream.ok data => searchFilter data.quotes
  | _ => []

/-- The CORS header set attached to every response
(lambda_function.py lines 165-170). -/
def CORS_HEADERS : List (String × String) :=
  [("Access-Control-Allow-Origin", "*"),
   ("Access-Control-Allow-Headers", "Content-Type,X-Amz-Date,Authorization,X-Api-Key,X-Amz-Security-Token"),
   ("Access-Control-Allow-Methods", "GET,OPTIONS,POST"),
   ("Access-Control-Max-Age", "86400")]

/-- The JSON content-type header added on every JSON branch. -/
def JSON_CT : String × String := ("Content-Type", "application/json; charset=utf-8")

/-- The cache header on the three success branches. -/
def CACHE_CTL : String × String := ("Cache-Control", "public, max-age=300")

/-- `valid_intervals` (lambda_function.py lines 217 and 266). -/
def valid_intervals : List String := ["15m", "30m", "60m", "1d", "1wk", "1mo"]

/-- The 400 error message for an invalid `interval`
(`f"無効なintervalです。有効な値: ..."` joined over `valid_intervals`). -/
def invalidIntervalMsg : String :=
  "無効なintervalです。有効な値: " ++ String.intercalate ", " valid_intervals

/-- Ticker normalization used on both the single-stock and the batch
route (lambda_function.py lines 233-234 and 279-280): append `".T"`
unless the ticker already ends with it. -/
def normalizeTicker (t : String) : String :=
  if pyEndsWith t ".T" then t else t ++ ".T"

/-- One entry of the batch route's `stocks` map (lambda_function.py
lines 313-317): display name, normalized ticker, and the fetch result. -/
structure StockEntry where
  name : String
  ticker : String
  result : FetchResult
deriving DecidableEq

/-- The `summary` block of a batch result. -/
structure BatchSummary where
  total_tickers : ℕ
  successful : ℕ
  failed : ℕ
  failed_tickers : List String
deriving DecidableEq

/-- The batch route's response body (lambda_function.py lines 294-305):
timestamps, the per-ticker `stocks` map in insertion order, and the
summary block. -/
structure BatchOut where
  updated_at : String
  updated_at_jst : String
  timezone : String
  stocks : List (String × StockEntry)
  summary : BatchSummary
deriving DecidableEq

/-- A structured view of the JSON bodies the handler can return. -/
inductive Body where
  | empty : Body
  | err : String → Body
  | searchOk : List SearchResult → String → String → Body
  | stockOk : String → String → FetchResult → String → Body
  | batch : BatchOut → Body
deriving DecidableEq

/-- A handler response: status code, header map in construction order,
and the body. -/
structure Response where
  statusCode : ℕ
  headers : List (String × String)
  body : Body
deriving DecidableEq

/-- A 400-class JSON error response
(`{**cors_headers, 'Content-Type': ...}` plus an error body). -/
def jsonError (status : ℕ) (msg : String) : Response :=
  { statusCode := status
    headers := CORS_HEADERS ++ [JSON_CT]
    body := Body.err msg }

/-- The inbound event: `httpMethod`, the method nested under
`requestContext.http.method`, and `queryStringParameters` (an absent or
null map is modelled as `none`). -/
structure Event where
  httpMethod : Option String
  requestContextMethod : Option String
  queryStringParameters : Option (List (String × String))

/-- `event.get('httpMethod') or event.get('requestContext', {}).get('http',
{}).get('method')`: the first operand wins unless it is falsy (absent or
the empty string). -/
def resolveMethod (e : Event) : Option String :=
  match e.httpMethod with
  | some m => if m = "" then e.requestContextMethod else some m
  | none => e.requestContextMethod

/-- `query_params.get(key, dflt)`. -/
def getParam (qp : List (String × String)) (key dflt : String) : String :=
  match qp.lookup key with
  | some v => v
  | none => dflt

/-- Python dict insertion for the batch ticker map `TICKERS[t] = t`:
a repeated key keeps its first position (the stored value, equal to the
key, is unchanged). -/
def dictInsert (d : List String) (t : String) : List String :=
  if t ∈ d then d else d ++ [t]

/-- The keys of the dict built by inserting each ticker in order. -/
def buildTickerDict (ts : List String) : List String :=
  ts.foldl dictInsert []

/-- The batch route's ticker-list construction from a non-empty
`tickers` query parameter (lambda_function.py lines 276-281): split on
commas, strip, drop empties, normalize, and collect into a dict mapping
each normalized ticker to itself. -/
def parseTickers (s : String) : List (String × String) :=
  let ticker_list := ((s.splitOn ",").map String.trim).filter (fun t => t ≠ "")
  (buildTickerDict (ticker_list.map normalizeTicker)).map (fun t => (t, t))

/-- The fixed default ticker dict shared by the batch route
(lambda_function.py lines 284-290) and the offline fetcher
(fetch_prices.py lines 8-14). -/
def TICKERS_DEFAULT : List (String × String) :=
  [("7203.T", "トヨタ自動車"),
   ("6758.T", "ソニーグループ"),
   ("9984.T", "ソフトバンクグループ"),
   ("6861.T", "キーエンス"),
   ("8306.T", "三菱UFJ")]

/-- Accumulator of the batch route's per-ticker loop. -/
structure BatchAcc where
  stocks : List (String × StockEntry)
  successful : ℕ
  failed : ℕ
  failed_tickers : List String
deriving DecidableEq

/-- One iteration of the batch loop (lambda_function.py lines 308-321):
on success append the stock entry (name taken from the fetch result's
`short_name`, which is always present) and bump `successful`; on absence
bump `failed` and record the ticker. -/
def batchStep (fetch : String → String → Option FetchResult) (interval : String)
    (acc : BatchAcc) (tn : String × String) : BatchAcc :=
  match fetch tn.1 interval with
  | some r =>
    { acc with
      stocks := acc.stocks ++ [(tn.1, { name := r.short_name, ticker := tn.1, result := r })]
      successful := acc.successful + 1 }
  | none =>
    { acc with
      failed := acc.failed + 1
      failed_tickers := acc.failed_tickers ++ [tn.1] }

/-- The batch route's whole fetch loop over the ticker dict. -/
def runBatch (fetch : String → String → Option FetchResult) (interval : String)
    (tickers : List (String × String)) : BatchAcc :=
  tickers.foldl (batchStep fetch interval) { stocks := [], successful := 0, failed := 0, failed_tickers := [] }

/-- The `action=search` branch (lambda_function.py lines 187-209). -/
def handleSearch (searchFn : String → List SearchResult) (now : String)
    (qp : List (String × String)) : Response :=
  let q := getParam qp "q" ""
  if q = "" then jsonError 400 "検索クエリが必要です"
  else
    { statusCode := 200
      headers := CORS_HEADERS ++ [JSON_CT, CACHE_CTL]
      body := Body.searchOk (searchFn q) q now }

/-- The `action=get_stock` branch (lambda_function.py lines 212-258):
validate the interval first, then require a ticker, normalize it, fetch,
and map absence to 404. -/
def handleGetStock (fetch : String → String → Option FetchResult) (now : String)
    (qp : List (String × String)) : Response :=
  let ticker := getParam qp "ticker" ""
  let interval := getParam qp "interval" "1d"
  if interval ∉ valid_intervals then jsonError 400 invalidIntervalMsg
  else if ticker = "" then jsonError 400 "銘柄コードが必要です"
  else
    let t := normalizeTicker ticker
    match fetch t interval with
    | some r =>
      { statusCode := 200
        headers := CORS_HEADERS ++ [JSON_CT, CACHE_CTL]
        body := Body.stockOk t r.short_name r now }
    | none => jsonError 404 ("銘柄 " ++ t ++ " のデータを取得できませんでした")

/-- The default (batch) branch (lambda_function.py lines 262-340):
validate the interval, build the ticker dict (explicit list or the fixed
default), run the loop, and return 200 when at least one ticker
succeeded, 500 otherwise, always with the full per-ticker body and the
diagnostic counter headers. -/
def handleBatch (fetch : String → String → Option FetchResult) (now : String)
    (qp : List (String × String)) : Response :=
  let tickersParam := getParam qp "tickers" ""
  let interval := getParam qp "interval" "1d"
  if interval ∉ valid_intervals then jsonError 400 invalidIntervalMsg
  else
    let tickers := if tickersParam ≠ "" then parseTickers tickersParam else TICKERS_DEFAULT
    let acc := runBatch fetch interval tickers
    { statusCode := if 0 < acc.successful then 200 else 500
      headers := CORS_HEADERS ++
        [JSON_CT, CACHE_CTL,
         ("X-Request-Time-JST", now),
         ("X-Success-Count", toString acc.successful),
         ("X-Failed-Count", toString acc.failed)]
      body := Body.batch
        { updated_at := now
          updated_at_jst := now
          timezone := "Asia/Tokyo (UTC+9)"
          stocks := acc.stocks
          summary :=
            { total_tickers := tickers.length
              successful := acc.successful
              failed := acc.failed
              failed_tickers := acc.failed_tickers } } }

/-- `lambda_handler` (lambda_function.py lines 152-340), parameterized
by the two fetch oracles and the server clock string.  OPTIONS requests
short-circuit with the bare CORS headers; otherwise the `action`
parameter (default `get_stocks`) selects the branch. -/
def lambda_handler (fetch : String → String → Option FetchResult)
    (searchFn : String → List SearchResult) (now : String) (e : Event) : Response :=
  if resolveMethod e = some "OPTIONS" then
    { statusCode := 200, headers := CORS_HEADERS, body := Body.empty }
  else
    let qp := e.queryStringParameters.getD []
    let action := getParam qp "action" "get_stocks"
    if action = "search" then handleSearch searchFn now qp
    else if action = "get_stock" then handleGetStock fetch now qp
    else handleBatch fetch now qp

/-- One entry of the offline fetcher's `stocks` map (fetch_prices.py
lines 70-79). -/
structure FetchEntry where
  name : String
  ticker : String
  data : List (ℤ × ℚ)
  summary : StockSummary
deriving DecidableEq

/-- Accumulator of the offline fetcher's per-ticker loop. -/
structure FetchAcc where
  stocks : List (String × FetchEntry)
  failed_tickers : List String
deriving DecidableEq

/-- The offline fetcher's output document (fetch_prices.py lines 18-94):
the `stocks` map and the summary block (`successful` is
`len(result["stocks"])`, `failed` is `len(failed_tickers)`). -/
structure FetchDataOut where
  stocks : List (String × FetchEntry)
  summary : BatchSummary
deriving DecidableEq

/-- The per-ticker body of `fetch_data` (fetch_prices.py lines 26-86) as
a function of the final history the bounded retry loop produced for the
ticker (`none` models a persistently failing `stock.history` call).  An
empty or absent history, an empty kept-row chart, or an exception in the
reduce all mark the ticker failed (`none`). -/
def fetchOneTicker (hist : String → Option (List (ℤ × PVal))) (t : String) :
    Option (List (ℤ × ℚ) × StockSummary) :=
  match hist t with
  | none => none
  | some rows =>
    if rows = [] then none
    else
      let chart := buildChartFetch rows
      match summaryFetch (chart.map Prod.snd) with
      | none => none
      | some s => some (chart, s)

/-- One iteration of the offline fetcher's loop (fetch_prices.py lines
25-86): a success appends to the `stocks` map, a failure appends the
ticker to `failed_tickers`. -/
def fetchDataStep (hist : String → Option (List (ℤ × PVal)))
    (acc : FetchAcc) (tn : String × String) : FetchAcc :=
  match fetchOneTicker hist tn.1 with
  | some pr =>
    { acc with
      stocks := acc.stocks ++
        [(tn.1, { name := tn.2, ticker := tn.1, data := pr.1, summary := pr.2 })] }
  | none => { acc with failed_tickers := acc.failed_tickers ++ [tn.1] }

/-- `fetch_data` plus the `__main__` exit-code policy (fetch_prices.py
lines 16-116): loop over the fixed ticker dict, collect successes into
`stocks` and failures into `failed_tickers`, build the summary block
(`successful` is `len(result["stocks"])`), and exit 0 exactly when at
least one ticker succeeded.  File output is not modelled. -/
def fetch_data (hist : String → Option (List (ℤ × PVal))) : FetchDataOut × ℕ :=
  let acc := TICKERS_DEFAULT.foldl (fetchDataStep hist)
    ({ stocks := [], failed_tickers := [] } : FetchAcc)
  let out : FetchDataOut :=
    { stocks := acc.stocks
      summary :=
        { total_tickers := TICKERS_DEFAULT.length
          successful := acc.stocks.length
          failed := acc.failed_tickers.length
          failed_tickers := acc.failed_tickers } }
  (out, if 0 < acc.stocks.length then 0 else 1)

/-- The ticker dict the batch route iterates: the parsed `tickers`
parameter when non-empty, the fixed default list otherwise. -/
def batchTickers (qp : List (String × String)) : List (String × String) :=
  if getParam qp "tickers" "" ≠ "" then parseTickers (getParam qp "tickers" "")
  else TICKERS_DEFAULT

/-- The batch route's loop result on a given request. -/
def batchAccOf (f : String → String → Option FetchResult)
    (qp : List (String × String)) : BatchAcc :=
  runBatch f (getParam qp "interval" "1d") (batchTickers qp)

/-- The batch route's response body on a given request. -/
def batchOutOf (f : String → String → Option FetchResult) (now : String)
    (qp : List (String × String)) : BatchOut :=
  { updated_at := now
    updated_at_jst := now
    timezone := "Asia/Tokyo (UTC+9)"
    stocks := (batchAccOf f qp).stocks
    summary :=
      { total_tickers := (batchTickers qp).length
        successful := (batchAccOf f qp).successful
        failed := (batchAccOf f qp).failed
        failed_tickers := (batchAccOf f qp).failed_tickers } }

/-! Helper lemmas. -/

theorem round2_zero : round2 0 = 0 := by
  unfold round2 roundHalfEven
  norm_num

theorem getLastD_map_pnum (p : ℚ) (ps : List ℚ) :
    List.getLastD (ps.map PVal.num) (PVal.num p) = PVal.num (List.getLastD ps p) := by
  induction ps generalizing p with
  | nil => rfl
  | cons a l ih => rw [List.map_cons, List.getLastD_cons, List.getLastD_cons]; exact ih a

theorem pymax_map_num (p : ℚ) (ps : List ℚ) :
    pymax (PVal.num p) (ps.map PVal.num) = PVal.num (ps.foldl max p) := by
  induction ps generalizing p with
  | nil => rfl
  | cons a l ih =>
    have hstep : (if pyGt (PVal.num a) (PVal.num p) then PVal.num a else PVal.num p)
        = PVal.num (max p a) := by
      by_cases h : p < a
      · simp [pyGt, h, max_eq_right (le_of_lt h)]
      · simp [pyGt, h, max_eq_left (le_of_not_lt h)]
    simpa [pymax, List.foldl_cons, hstep] using ih (max p a)

theorem pymin_map_num (p : ℚ) (ps : List ℚ) :
    pymin (PVal.num p) (ps.map PVal.num) = PVal.num (ps.foldl min p) := by
  induction ps generalizing p with
  | nil => rfl
  | cons a l ih =>
    have hstep : (if pyLt (PVal.num a) (PVal.num p) then PVal.num a else PVal.num p)
        = PVal.num (min p a) := by
      by_cases h : a < p
      · simp [pyLt, h, min_eq_right (le_of_lt h)]
      · simp [pyLt, h, min_eq_left (le_of_not_lt h)]
    simpa [pymin, List.foldl_cons, hstep] using ih (min p a)

theorem foldl_max_mem (p : ℚ) (ps : List ℚ) : ps.foldl max p ∈ p :: ps := by
  induction ps generalizing p with
  | nil => simp
  | cons a l ih =>
    rw [List.foldl_cons]
    rcases List.mem_cons.1 (ih (max p a)) with h2 | h2
    · rcases max_choice p a with h | h
      · rw [h2, h]; exact List.mem_cons_self _ _
      · rw [h2, h]; exact List.mem_cons_of_mem _ (List.mem_cons_self _ _)
    · exact List.mem_cons_of_mem _ (List.mem_cons_of_mem _ h2)

theorem foldl_max_le (p : ℚ) (ps : List ℚ) : ∀ x ∈ p :: ps, x ≤ ps.foldl max p := by
  induction ps generalizing p with
  | nil => intro x hx; simp at hx; simp [hx]
  | cons a l ih =>
    intro x hx
    rw [List.foldl_cons]
    have hmax : max p a ≤ List.foldl max (max p a) l :=
      ih (max p a) (max p a) (List.mem_cons_self _ _)
    rcases List.mem_cons.1 hx with h | h
    · rw [h]; exact le_trans (le_max_left p a) hmax
    · rcases List.mem_cons.1 h with h2 | h2
      · rw [h2]; exact le_trans (le_max_right p a) hmax
      · exact ih (max p a) x (List.mem_cons_of_mem _ h2)

theorem foldl_min_mem (p : ℚ) (ps : List ℚ) : ps.foldl min p ∈ p :: ps := by
  induction ps generalizing p with
  | nil => simp
  | cons a l ih =>
    rw [List.foldl_cons]
    rcases List.mem_cons.1 (ih (min p a)) with h2 | h2
    · rcases min_choice p a with h | h
      · rw [h2, h]; exact List.mem_cons_self _ _
      · rw [h2, h]; exact List.mem_cons_of_mem _ (List.mem_cons_self _ _)
    · exact List.mem_cons_of_mem _ (List.mem_cons_of_mem _ h2)

theorem foldl_min_le (p : ℚ) (ps : List ℚ) : ∀ x ∈ p :: ps, ps.foldl min p ≤ x := by
  induction ps generalizing p with
  | nil => intro x hx; simp at hx; simp [hx]
  | cons a l ih =>
    intro x hx
    rw [List.foldl_cons]
    have hmin : List.foldl min (min p a) l ≤ min p a :=
      ih (min p a) (min p a) (List.mem_cons_self _ _)
    rcases List.mem_cons.1 hx with h | h
    · rw [h]; exact le_trans hmin (min_le_left p a)
    · rcases List.mem_cons.1 h with h2 | h2
      · rw [h2]; exact le_trans hmin (min_le_right p a)
      · exact ih (min p a) x (List.mem_cons_of_mem _ h2)

theorem buildChartV8_all_none (ts : List ℤ) (cs : List (Option PVal))
    (h : ∀ c ∈ cs, c = none) : buildChartV8 ts cs = [] := by
  induction ts generalizing cs with
  | nil => rfl
  | cons t ts ih =>
    cases cs with
    | nil => rfl
    | cons c cs =>
      have hc := h c (List.mem_cons_self _ _)
      subst hc
      exact ih cs (fun c hc => h c (List.mem_cons_of_mem _ hc))

theorem buildChartV8_map_snd (ts : List ℤ) (cs : List (Option PVal))
    (h : ts.length = cs.length) :
    (buildChartV8 ts cs).map Prod.snd = cs.reduceOption := by
  induction ts generalizing cs with
  | nil =>
    cases cs with
    | nil => rfl
    | cons c cs => simp at h
  | cons t ts ih =>
    cases cs with
    | nil => simp at h
    | cons c cs =>
      have h' : ts.length = cs.length := by simpa using h
      cases c with
      | none => simpa [buildChartV8, List.reduceOption] using ih cs h'
      | some v => simpa [buildChartV8, List.reduceOption] using ih cs h'

theorem buildChartFetch_map_snd (rows : List (ℤ × PVal)) :
    (buildChartFetch rows).map Prod.snd = (rows.map Prod.snd).filterMap fetchKeep := by
  induction rows with
  | nil => rfl
  | cons r rows ih =>
    rcases r with ⟨t, c⟩
    cases hc : fetchKeep c with
    | none => simp [buildChartFetch, hc, ih, List.filterMap_cons]
    | some q => simp [buildChartFetch, hc, ih, List.filterMap_cons]

theorem filterMap_fetchKeep_map_num (a : List ℚ) (hz : ∀ q ∈ a, q ≠ 0) :
    (a.map PVal.num).filterMap fetchKeep = a := by
  induction a with
  | nil => rfl
  | cons q l ih =>
    have hq : q ≠ 0 := hz q (List.mem_cons_self _ _)
    have hl := ih (fun x hx => hz x (List.mem_cons_of_mem _ hx))
    simp [List.filterMap_cons, fetchKeep, hq, hl]

theorem batch_successful_eq (f : String → String → Option FetchResult) (iv : String)
    (ts : List (String × String)) (acc : BatchAcc) :
    (ts.foldl (batchStep f iv) acc).successful
      = acc.successful + ts.countP (fun tn => (f tn.1 iv).isSome) := by
  induction ts generalizing acc with
  | nil => simp
  | cons tn ts ih =>
    rw [List.foldl_cons, ih, List.countP_cons]
    cases hf : f tn.1 iv <;> simp [batchStep, hf] <;> omega

theorem batch_failed_eq (f : String → String → Option FetchResult) (iv : String)
    (ts : List (String × String)) (acc : BatchAcc) :
    (ts.foldl (batchStep f iv) acc).failed
      = acc.failed + ts.countP (fun tn => (f tn.1 iv).isNone) := by
  induction ts generalizing acc with
  | nil => simp
  | cons tn ts ih =>
    rw [List.foldl_cons, ih, List.countP_cons]
    cases hf : f tn.1 iv <;> simp [batchStep, hf] <;> omega

theorem batch_stocks_len_eq (f : String → String → Option FetchResult) (iv : String)
    (ts : List (String × String)) (acc : BatchAcc) :
    (ts.foldl (batchStep f iv) acc).stocks.length
      = acc.stocks.length + ts.countP (fun tn => (f tn.1 iv).isSome) := by
  induction ts generalizing acc with
  | nil => simp
  | cons tn ts ih =>
    rw [List.foldl_cons, ih, List.countP_cons]
    cases hf : f tn.1 iv <;> simp [batchStep, hf] <;> omega

theorem batch_failed_tickers_len_eq (f : String → String → Option FetchResult) (iv : String)
    (ts : List (String × String)) (acc : BatchAcc) :
    (ts.foldl (batchStep f iv) acc).failed_tickers.length
      = acc.failed_tickers.length + ts.countP (fun tn => (f tn.1 iv).isNone) := by
  induction ts generalizing acc with
  | nil => simp
  | cons tn ts ih =>
    rw [List.foldl_cons, ih, List.countP_cons]
    cases hf : f tn.1 iv <;> simp [batchStep, hf] <;> omega

theorem countP_isSome_add_isNone {α β : Type} (g : α → Option β) (ts : List α) :
    ts.countP (fun tn => (g tn).isSome) + ts.countP (fun tn => (g tn).isNone) = ts.length := by
  induction ts with
  | nil => rfl
  | cons tn ts ih =>
    rw [List.countP_cons, List.countP_cons]
    cases hf : g tn <;> simp [hf] <;> omega

theorem fetchData_stocks_len_eq (hist : String → Option (List (ℤ × PVal)))
    (ts : List (String × String)) (acc : FetchAcc) :
    (ts.foldl (fetchDataStep hist) acc).stocks.length
      = acc.stocks.length + ts.countP (fun tn => (fetchOneTicker hist tn.1).isSome) := by
  induction ts generalizing acc with
  | nil => simp
  | cons tn ts ih =>
    rw [List.foldl_cons, ih, List.countP_cons]
    cases hf : fetchOneTicker hist tn.1 <;> simp [fetchDataStep, hf] <;> omega

theorem fetchData_failed_len_eq (hist : String → Option (List (ℤ × PVal)))
    (ts : List (String × String)) (acc : FetchAcc) :
    (ts.foldl (fetchDataStep hist) acc).failed_tickers.length
      = acc.failed_tickers.length + ts.countP (fun tn => (fetchOneTicker hist tn.1).isNone) := by
  induction ts generalizing acc with
  | nil => simp
  | cons tn ts ih =>
    rw [List.foldl_cons, ih, List.countP_cons]
    cases hf : fetchOneTicker hist tn.1 <;> simp [fetchDataStep, hf] <;> omega

theorem dict_foldl_nodup (ts : List String) (d : List String) (hd : d.Nodup) :
    (ts.foldl dictInsert d).Nodup := by
  induction ts generalizing d with
  | nil => exact hd
  | cons t ts ih =>
    rw [List.foldl_cons]
    refine ih (dictInsert d t) ?_
    unfold dictInsert
    by_cases h : t ∈ d
    · rw [if_pos h]; exact hd
    · rw [if_neg h, List.nodup_append]
      exact ⟨hd, List.nodup_singleton t,
        fun a ha hb => h ((List.mem_singleton.1 hb) ▸ ha)⟩

theorem dict_foldl_mem (ts : List String) (d : List String) (x : String) :
    x ∈ ts.foldl dictInsert d ↔ x ∈ d ∨ x ∈ ts := by
  induction ts generalizing d with
  | nil => simp
  | cons t ts ih =>
    rw [List.foldl_cons, ih]
    have hins : x ∈ dictInsert d t ↔ x ∈ d ∨ x = t := by
      unfold dictInsert
      by_cases h : t ∈ d
      · rw [if_pos h]
        constructor
        · exact Or.inl
        · rintro (hx | rfl)
          · exact hx
          · exact h
      · rw [if_neg h]
        simp [List.mem_append]
    rw [hins]
    simp only [List.mem_cons]
    tauto

theorem searchFilter_eq (qs : List SearchQuote) :
    searchFilter qs = (qs.filter (fun q => pyEndsWith q.symbol ".T")).map mkSearchEntry := by
  induction qs with
  | nil => rfl
  | cons q qs ih =>
    unfold searchFilter
    by_cases h : pyEndsWith q.symbol ".T"
    · rw [if_pos h, List.filter_cons_of_pos (by simpa using h), List.map_cons, ih]
    · rw [if_neg h, List.filter_cons_of_neg (by simpa using h), ih]

theorem pyEndsWith_append_T (s : String) : pyEndsWith (s ++ ".T") ".T" = true := by
  unfold pyEndsWith
  rw [String.data_append]
  exact (List.isSuffixOf_iff_suffix).2 (List.suffix_append _ _)

theorem handleSearch_shape (sFn : String → List SearchResult) (now : String)
    (qp : List (String × String)) :
    ∃ rest, (handleSearch sFn now qp).headers = CORS_HEADERS ++ JSON_CT :: rest ∧
            (handleSearch sFn now qp).body ≠ Body.empty := by
  unfold handleSearch jsonError
  by_cases h : getParam qp "q" "" = ""
  · rw [if_pos h]; exact ⟨[], rfl, by simp⟩
  · rw [if_neg h]; exact ⟨[CACHE_CTL], rfl, by simp⟩

theorem handleGetStock_shape (f : String → String → Option FetchResult) (now : String)
    (qp : List (String × String)) :
    ∃ rest, (handleGetStock f now qp).headers = CORS_HEADERS ++ JSON_CT :: rest ∧
            (handleGetStock f now qp).body ≠ Body.empty := by
  unfold handleGetStock jsonError
  dsimp only
  split
  · exact ⟨[], rfl, by simp⟩
  · split
    · exact ⟨[], rfl, by simp⟩
    · split
      · exact ⟨[CACHE_CTL], rfl, by simp⟩
      · exact ⟨[], rfl, by simp⟩

theorem handleBatch_shape (f : String → String → Option FetchResult) (now : String)
    (qp : List (String × String)) :
    ∃ rest, (handleBatch f now qp).headers = CORS_HEADERS ++ JSON_CT :: rest ∧
            (handleBatch f now qp).body ≠ Body.empty := by
  unfold handleBatch jsonError
  dsimp only
  split
  · exact ⟨[], rfl, by simp⟩
  · exact ⟨_, rfl, by simp⟩

theorem lambda_handler_dispatch (f : String → String → Option FetchResult)
    (sFn : String → List SearchResult) (now : String) (e : Event)
    (hm : resolveMethod e ≠ some "OPTIONS") :
    (getParam (e.queryStringParameters.getD []) "action" "get_stocks" = "search" →
       lambda_handler f sFn now e = handleSearch sFn now (e.queryStringParameters.getD [])) ∧
    (getParam (e.queryStringParameters.getD []) "action" "get_stocks" = "get_stock" →
       lambda_handler f sFn now e = handleGetStock f now (e.queryStringParameters.getD [])) ∧
    (getParam (e.queryStringParameters.getD []) "action" "get_stocks" ≠ "search" →
     getParam (e.queryStringParameters.getD []) "action" "get_stocks" ≠ "get_stock" →
       lambda_handler f sFn now e = handleBatch f now (e.queryStringParameters.getD [])) := by
  unfold lambda_handler
  rw [if_neg hm]
  dsimp only
  refine ⟨?_, ?_, ?_⟩
  · intro h
    rw [if_pos h]
  · intro h
    have hne : getParam (e.queryStringParameters.getD []) "action" "get_stocks" ≠ "search" := by
      rw [h]; decide
    rw [if_neg hne, if_pos h]
  · intro h1 h2
    rw [if_neg h1, if_neg h2]

theorem handleBatch_eq (f : String → String → Option FetchResult) (now : String)
    (qp : List (String × String))
    (hi : getParam qp "interval" "1d" ∈ valid_intervals) :
    handleBatch f now qp =
      { statusCode := if 0 < (batchAccOf f qp).successful then 200 else 500
        headers := CORS_HEADERS ++
          [JSON_CT, CACHE_CTL,
           ("X-Request-Time-JST", now),
           ("X-Success-Count", toString (batchAccOf f qp).successful),
           ("X-Failed-Count", toString (batchAccOf f qp).failed)]
        body := Body.batch (batchOutOf f now qp) } := by
  unfold handleBatch batchOutOf batchAccOf batchTickers
  dsimp only
  rw [if_neg (not_not_intro hi)]

/-- C6: for every upstream outcome that is not a successfully parsed
payload (transport/timeout error, non-2xx status, malformed JSON) and
for every parsed payload with empty or nulled data (missing
`chart`/`result`, empty result list, empty timestamp or close array, or
all-null close array), the Quote Fetcher returns the absence result
`none` rather than raising, and the Ticker Search returns the empty
result list rather than raising.  (In the source every such outcome is
caught by the `except` clauses or the explicit shape checks; the model
is total, so "never raises" is expressed by these functions being total
with `none` / `[]` as the value on every failure outcome.) -/
theorem C6_failures_downgraded (tk iv : String) :
    (∀ u : Upstream ChartResponse, (∀ r, u ≠ Upstream.ok r) →
       get_stock_price_yfinance_v8 tk iv u = none) ∧
    get_stock_price_yfinance_v8 tk iv (Upstream.ok { result := none }) = none ∧
    get_stock_price_yfinance_v8 tk iv (Upstream.ok { result := some [] }) = none ∧
    (∀ sn cs, get_stock_price_yfinance_v8 tk iv
       (Upstream.ok { result := some [{ shortName := sn, timestamp := [], close := cs }] }) = none) ∧
    (∀ sn ts, get_stock_price_yfinance_v8 tk iv
       (Upstream.ok { result := some [{ shortName := sn, timestamp := ts, close := [] }] }) = none) ∧
    (∀ sn ts cs, (∀ c ∈ cs, c = none) →
       get_stock_price_yfinance_v8 tk iv
         (Upstream.ok { result := some [{ shortName := sn, timestamp := ts, close := cs }] }) = none) ∧
    (∀ u : Upstream SearchResponse, (∀ r, u ≠ Upstream.ok r) → search_ticker u = []) := by
  refine ⟨?_, rfl, rfl, ?_, ?_, ?_, ?_⟩
  · intro u hu
    cases u with
    | transportError => rfl
    | httpError c => rfl
    | malformedJSON => rfl
    | ok r => exact absurd rfl (hu r)
  · intro sn cs
    rfl
  · intro sn ts
    unfold get_stock_price_yfinance_v8
    dsimp only
    by_cases hts : ts = []
    · rw [if_pos hts]
    · rw [if_neg hts, if_pos rfl]
  · intro sn ts cs h
    unfold get_stock_price_yfinance_v8
    dsimp only
    by_cases hts : ts = []
    · rw [if_pos hts]
    · rw [if_neg hts]
      by_cases hcs : cs = []
      · rw [if_pos hcs]
      · rw [if_neg hcs]
        rw [buildChartV8_all_none ts cs h]
        simp
  · intro u hu
    cases u with
    | transportError => rfl
    | httpError c => rfl
    | malformedJSON => rfl
    | ok r => exact absurd rfl (hu r)

/-- C6 witness: at the concrete failure outcomes `transportError` and an
all-null close array, the fetcher returns `none` and the search returns
`[]`. -/
theorem C6_failures_downgraded_witness :
    get_stock_price_yfinance_v8 "7203.T" "1d" Upstream.transportError = none ∧
    get_stock_price_yfinance_v8 "7203.T" "1d"
      (Upstream.ok { result := some [{ shortName := none, timestamp := [0, 1], close := [none, none] }] }) = none ∧
    search_ticker (Upstream.httpError 500) = [] := by
  have h := C6_failures_downgraded "7203.T" "1d"
  refine ⟨h.1 Upstream.transportError (fun r => by simp), ?_, ?_⟩
  · exact h.2.2.2.2.2.1 none [0, 1] [none, none] (by simp)
  · exact h.2.2.2.2.2.2 (Upstream.httpError 500) (fun r => by simp)

/-- C7: ticker normalization (used identically on the single-stock route
and on the batch route) appends `".T"` exactly when the ticker does not
already end with it, leaves it unchanged otherwise, is idempotent, and
always produces a ticker ending with `".T"`. -/
theorem C7_ticker_normalization (t : String) :
    (pyEndsWith t ".T" = false → normalizeTicker t = t ++ ".T") ∧
    (pyEndsWith t ".T" = true → normalizeTicker t = t) ∧
    pyEndsWith (normalizeTicker t) ".T" = true ∧
    normalizeTicker (normalizeTicker t) = normalizeTicker t := by
  by_cases h : pyEndsWith t ".T" = true
  · have h1 : normalizeTicker t = t := by unfold normalizeTicker; rw [if_pos h]
    refine ⟨fun hf => ?_, fun _ => h1, ?_, ?_⟩
    · rw [h] at hf; cases hf
    · rw [h1]; exact h
    · rw [h1, h1]
  · have h1 : normalizeTicker t = t ++ ".T" := by unfold normalizeTicker; rw [if_neg h]
    refine ⟨fun _ => h1, fun ht => absurd ht h, ?_, ?_⟩
    · rw [h1]; exact pyEndsWith_append_T t
    · rw [h1]
      unfold normalizeTicker
      rw [if_pos (pyEndsWith_append_T t)]

/-- C7 witness: a bare code gains the suffix, a suffixed code is
unchanged, and both results end with the suffix. -/
theorem C7_ticker_normalization_witness :
    normalizeTicker "7203" = "7203.T" ∧
    normalizeTicker "6758.T" = "6758.T" ∧
    pyEndsWith (normalizeTicker "7203") ".T" = true := by
  refine ⟨(C7_ticker_normalization "7203").1 rfl, ?_, (C7_ticker_normalization "7203").2.2.1⟩
  exact (C7_ticker_normalization "6758.T").2.1 rfl

/-- C8: the Ticker Search keeps exactly the upstream quotes whose symbol
ends with `".T"` (in order), so every returned entry's symbol ends with
`".T"`; each kept entry's `name` prefers the upstream short name,
falling back to the long name, falling back to the symbol, its `type`
falls back to `"Stock"`, and its `exchange` falls back to `""`. -/
theorem C8_search_suffix_filter (resp : SearchResponse) :
    search_ticker (Upstream.ok resp)
        = (resp.quotes.filter (fun q => pyEndsWith q.symbol ".T")).map mkSearchEntry ∧
    (∀ r ∈ search_ticker (Upstream.ok resp), pyEndsWith r.symbol ".T" = true) ∧
    (∀ q : SearchQuote,
       mkSearchEntry q =
         { symbol := q.symbol
           name := q.shortname.getD (q.longname.getD q.symbol)
           type := q.typeDisp.getD "Stock"
           exchange := q.exchange.getD "" }) := by
  refine ⟨searchFilter_eq resp.quotes, ?_, fun q => rfl⟩
  intro r hr
  rw [show search_ticker (Upstream.ok resp) = searchFilter resp.quotes from rfl,
    searchFilter_eq] at hr
  rcases List.mem_map.1 hr with ⟨q, hq, rfl⟩
  have hkeep := List.of_mem_filter hq
  simpa [mkSearchEntry] using hkeep

/-- C8 witness: a response containing one Tokyo symbol and one non-Tokyo
symbol yields only the Tokyo entry, with all fallbacks applied. -/
theorem C8_search_suffix_filter_witness :
    search_ticker (Upstream.ok
        { quotes := [{ symbol := "7203.T", shortname := some "トヨタ自動車",
                       longname := none, typeDisp := none, exchange := none },
                     { symbol := "AAPL", shortname := some "Apple",
                       longname := none, typeDisp := some "Equity", exchange := some "NMS" }] })
      = [{ symbol := "7203.T", name := "トヨタ自動車", type := "Stock", exchange := "" }] ∧
    pyEndsWith "7203.T" ".T" = true := by
  have h := C8_search_suffix_filter
    { quotes := [{ symbol := "7203.T", shortname := some "トヨタ自動車",
                   longname := none, typeDisp := none, exchange := none },
                 { symbol := "AAPL", shortname := some "Apple",
                   longname := none, typeDisp := some "Equity", exchange := some "NMS" }] }
  have he : search_ticker (Upstream.ok
      { quotes := [{ symbol := "7203.T", shortname := some "トヨタ自動車",
                     longname := none, typeDisp := none, exchange := none },
                   { symbol := "AAPL", shortname := some "Apple",
                     longname := none, typeDisp := some "Equity", exchange := some "NMS" }] })
      = [{ symbol := "7203.T", name := "トヨタ自動車", type := "Stock", exchange := "" }] := by
    rw [h.1]; rfl
  refine ⟨he, ?_⟩
  have hm := h.2.1 { symbol := "7203.T", name := "トヨタ自動車", type := "Stock", exchange := "" }
    (by rw [he]; exact List.mem_singleton_self _)
  exact hm

/-- C9: every response of the request handler carries the full CORS
header set; an OPTIONS request (whatever its query parameters) yields
exactly status 200 with the bare CORS headers and an empty body; and
every non-OPTIONS branch returns a JSON body together with the
`Content-Type: application/json; charset=utf-8` header. -/
theorem C9_cors_envelope (f : String → String → Option FetchResult)
    (sFn : String → List SearchResult) (now : String) (e : Event) :
    (∀ c ∈ CORS_HEADERS, c ∈ (lambda_handler f sFn now e).headers) ∧
    (resolveMethod e = some "OPTIONS" →
       lambda_handler f sFn now e
         = { statusCode := 200, headers := CORS_HEADERS, body := Body.empty }) ∧
    (resolveMethod e ≠ some "OPTIONS" →
       JSON_CT ∈ (lambda_handler f sFn now e).headers ∧
       (lambda_handler f sFn now e).body ≠ Body.empty) := by
  by_cases hm : resolveMethod e = some "OPTIONS"
  · have hh : lambda_handler f sFn now e
        = { statusCode := 200, headers := CORS_HEADERS, body := Body.empty } := by
      unfold lambda_handler
      rw [if_pos hm]
    refine ⟨?_, fun _ => hh, fun hne => absurd hm hne⟩
    intro c hc
    rw [hh]
    exact hc
  · have hshape : ∃ rest, (lambda_handler f sFn now e).headers
        = CORS_HEADERS ++ JSON_CT :: rest ∧ (lambda_handler f sFn now e).body ≠ Body.empty := by
      rcases lambda_handler_dispatch f sFn now e hm with ⟨hd1, hd2, hd3⟩
      by_cases ha1 : getParam (e.queryStringParameters.getD []) "action" "get_stocks" = "search"
      · rw [hd1 ha1]; exact handleSearch_shape sFn now _
      · by_cases ha2 : getParam (e.queryStringParameters.getD []) "action" "get_stocks" = "get_stock"
        · rw [hd2 ha2]; exact handleGetStock_shape f now _
        · rw [hd3 ha1 ha2]; exact handleBatch_shape f now _
    rcases hshape with ⟨rest, hh, hb⟩
    refine ⟨?_, fun hopt => absurd hopt hm, fun _ => ⟨?_, hb⟩⟩
    · intro c hc
      rw [hh]
      exact List.mem_append_left _ hc
    · rw [hh]
      exact List.mem_append_right _ (List.mem_cons_self _ _)

/-- C9 witness: an OPTIONS request with query parameters present yields
the bare-CORS 200 empty response, and a concrete GET request carries the
CORS headers and the JSON content type. -/
theorem C9_cors_envelope_witness :
    lambda_handler (fun _ _ => none) (fun _ => []) "2025-01-01 00:00:00"
        { httpMethod := some "OPTIONS", requestContextMethod := none,
          queryStringParameters := some [("action", "search")] }
      = { statusCode := 200, headers := CORS_HEADERS, body := Body.empty } ∧
    JSON_CT ∈ (lambda_handler (fun _ _ => none) (fun _ => []) "2025-01-01 00:00:00"
        { httpMethod := some "GET", requestContextMethod := none,
          queryStringParameters := none }).headers := by
  constructor
  · exact (C9_cors_envelope (fun _ _ => none) (fun _ => []) "2025-01-01 00:00:00"
      { httpMethod := some "OPTIONS", requestContextMethod := none,
        queryStringParameters := some [("action", "search")] }).2.1 (by rfl)
  · exact ((C9_cors_envelope (fun _ _ => none) (fun _ => []) "2025-01-01 00:00:00"
      { httpMethod := some "GET", requestContextMethod := none,
        queryStringParameters := none }).2.2 (by simp [resolveMethod])).1

/-- C3: on the single-stock route and on the default batch route the six
interval strings of `valid_intervals` are accepted (the request is never
answered with the invalid-interval 400), `"1d"` is substituted when the
parameter is absent, and any other interval string yields exactly the
400 response whose error message lists the six accepted values — and
that response is the same for every fetch and search oracle, i.e. no
fetch is attempted. -/
theorem C3_interval_validation (f : String → String → Option FetchResult)
    (sFn : String → List SearchResult) (now : String) (e : Event)
    (hm : resolveMethod e ≠ some "OPTIONS") :
    invalidIntervalMsg = "無効なintervalです。有効な値: 15m, 30m, 60m, 1d, 1wk, 1mo" ∧
    ((e.queryStringParameters.getD []).lookup "interval" = none →
       getParam (e.queryStringParameters.getD []) "interval" "1d" = "1d") ∧
    (getParam (e.queryStringParameters.getD []) "action" "get_stocks" = "get_stock" →
       (getParam (e.queryStringParameters.getD []) "interval" "1d" ∈ valid_intervals →
          lambda_handler f sFn now e ≠ jsonError 400 invalidIntervalMsg) ∧
       (getParam (e.queryStringParameters.getD []) "interval" "1d" ∉ valid_intervals →
          ∀ g sFn2, lambda_handler g sFn2 now e = jsonError 400 invalidIntervalMsg)) ∧
    (getParam (e.queryStringParameters.getD []) "action" "get_stocks" ≠ "search" →
     getParam (e.queryStringParameters.getD []) "action" "get_stocks" ≠ "get_stock" →
       (getParam (e.queryStringParameters.getD []) "interval" "1d" ∈ valid_intervals →
          lambda_handler f sFn now e ≠ jsonError 400 invalidIntervalMsg) ∧
       (getParam (e.queryStringParameters.getD []) "interval" "1d" ∉ valid_intervals →
          ∀ g sFn2, lambda_handler g sFn2 now e = jsonError 400 invalidIntervalMsg)) := by
  refine ⟨rfl, ?_, ?_, ?_⟩
  · intro h
    unfold getParam
    rw [h]
  · intro ha
    constructor
    · intro hi hEq
      rcases lambda_handler_dispatch f sFn now e hm with ⟨_, hd2, _⟩
      rw [hd2 ha] at hEq
      unfold handleGetStock at hEq
      dsimp only at hEq
      rw [if_neg (not_not_intro hi)] at hEq
      by_cases ht : getParam (e.queryStringParameters.getD []) "ticker" "" = ""
      · rw [if_pos ht] at hEq
        have hb := congrArg Response.body hEq
        dsimp [jsonError] at hb
        injection hb with hmsg
        exact absurd hmsg (by decide)
      · rw [if_neg ht] at hEq
        rcases hf : f (normalizeTicker (getParam (e.queryStringParameters.getD []) "ticker" ""))
            (getParam (e.queryStringParameters.getD []) "interval" "1d") with _ | r
        · rw [hf] at hEq
          dsimp only at hEq
          have hst := congrArg Response.statusCode hEq
          dsimp [jsonError] at hst
          exact absurd hst (by decide)
        · rw [hf] at hEq
          dsimp only at hEq
          have hst := congrArg Response.statusCode hEq
          dsimp [jsonError] at hst
          exact absurd hst (by decide)
    · intro hi g sFn2
      rcases lambda_handler_dispatch g sFn2 now e hm with ⟨_, hd2, _⟩
      rw [hd2 ha]
      unfold handleGetStock
      dsimp only
      rw [if_pos hi]
  · intro ha1 ha2
    constructor
    · intro hi hEq
      rcases lambda_handler_dispatch f sFn now e hm with ⟨_, _, hd3⟩
      rw [hd3 ha1 ha2, handleBatch_eq f now _ hi] at hEq
      have hst := congrArg Response.statusCode hEq
      dsimp [jsonError] at hst
      by_cases h0 : 0 < (batchAccOf f (e.queryStringParameters.getD [])).successful
      · rw [if_pos h0] at hst
        exact absurd hst (by decide)
      · rw [if_neg h0] at hst
        exact absurd hst (by decide)
    · intro hi g sFn2
      rcases lambda_handler_dispatch g sFn2 now e hm with ⟨_, _, hd3⟩
      rw [hd3 ha1 ha2]
      unfold handleBatch
      dsimp only
      rw [if_pos hi]

/-- C3 witness: a concrete `get_stock` request with interval `"2h"` gets
exactly the invalid-interval 400 for any fetch oracle, while the same
request without an interval parameter (so `"1d"` is used) does not. -/
theorem C3_interval_validation_witness :
    lambda_handler (fun _ _ => none) (fun _ => []) "2025-01-01 00:00:00"
        { httpMethod := some "GET", requestContextMethod := none,
          queryStringParameters :=
            some [("action", "get_stock"), ("ticker", "7203"), ("interval", "2h")] }
      = jsonError 400 invalidIntervalMsg ∧
    lambda_handler (fun _ _ => none) (fun _ => []) "2025-01-01 00:00:00"
        { httpMethod := some "GET", requestContextMethod := none,
          queryStringParameters := some [("action", "get_stock"), ("ticker", "7203")] }
      ≠ jsonError 400 invalidIntervalMsg := by
  constructor
  · exact ((C3_interval_validation (fun _ _ => none) (fun _ => []) "2025-01-01 00:00:00"
      { httpMethod := some "GET", requestContextMethod := none,
        queryStringParameters :=
          some [("action", "get_stock"), ("ticker", "7203"), ("interval", "2h")] }
      (by decide)).2.2.1 (by rfl)).2 (by decide) (fun _ _ => none) (fun _ => [])
  · exact ((C3_interval_validation (fun _ _ => none) (fun _ => []) "2025-01-01 00:00:00"
      { httpMethod := some "GET", requestContextMethod := none,
        queryStringParameters := some [("action", "get_stock"), ("ticker", "7203")] }
      (by decide)).2.2.1 (by rfl)).1 (by decide)

/-- C5: on the default batch route (valid interval) the response status
is 500 exactly when zero tickers succeeded and 200 exactly when at least
one did, the body always carries the full per-ticker batch result with
its summary block, and zero successes force `failed = total_tickers`;
the offline fetcher's exit code is 1 exactly when zero tickers succeeded
and 0 otherwise. -/
theorem C5_batch_failure_signal (f : String → String → Option FetchResult)
    (sFn : String → List SearchResult) (now : String) (e : Event)
    (hm : resolveMethod e ≠ some "OPTIONS")
    (ha1 : getParam (e.queryStringParameters.getD []) "action" "get_stocks" ≠ "search")
    (ha2 : getParam (e.queryStringParameters.getD []) "action" "get_stocks" ≠ "get_stock")
    (hi : getParam (e.queryStringParameters.getD []) "interval" "1d" ∈ valid_intervals) :
    ((lambda_handler f sFn now e).statusCode = 500 ↔
       (batchAccOf f (e.queryStringParameters.getD [])).successful = 0) ∧
    ((lambda_handler f sFn now e).statusCode = 200 ↔
       0 < (batchAccOf f (e.queryStringParameters.getD [])).successful) ∧
    (lambda_handler f sFn now e).body
        = Body.batch (batchOutOf f now (e.queryStringParameters.getD [])) ∧
    ((batchAccOf f (e.queryStringParameters.getD [])).successful = 0 →
       (batchAccOf f (e.queryStringParameters.getD [])).failed
         = (batchTickers (e.queryStringParameters.getD [])).length) ∧
    (∀ hist, ((fetch_data hist).2 = 1 ↔ (fetch_data hist).1.summary.successful = 0) ∧
             ((fetch_data hist).2 = 0 ↔ 0 < (fetch_data hist).1.summary.successful)) := by
  rcases lambda_handler_dispatch f sFn now e hm with ⟨_, _, hd3⟩
  have hEq := hd3 ha1 ha2
  rw [handleBatch_eq f now _ hi] at hEq
  refine ⟨?_, ?_, ?_, ?_, ?_⟩
  · rw [hEq]
    dsimp only
    by_cases h0 : 0 < (batchAccOf f (e.queryStringParameters.getD [])).successful
    · rw [if_pos h0]
      constructor
      · intro h; omega
      · intro h; omega
    · rw [if_neg h0]
      constructor
      · intro _; omega
      · intro _; rfl
  · rw [hEq]
    dsimp only
    by_cases h0 : 0 < (batchAccOf f (e.queryStringParameters.getD [])).successful
    · rw [if_pos h0]
      exact ⟨fun _ => h0, fun _ => rfl⟩
    · rw [if_neg h0]
      constructor
      · intro h; omega
      · intro h; exact absurd h h0
  · rw [hEq]
  · intro hzero
    have hs := batch_successful_eq f
      (getParam (e.queryStringParameters.getD []) "interval" "1d")
      (batchTickers (e.queryStringParameters.getD []))
      { stocks := [], successful := 0, failed := 0, failed_tickers := [] }
    have hfl := batch_failed_eq f
      (getParam (e.queryStringParameters.getD []) "interval" "1d")
      (batchTickers (e.queryStringParameters.getD []))
      { stocks := [], successful := 0, failed := 0, failed_tickers := [] }
    have hsum := countP_isSome_add_isNone
      (fun tn => f tn.1 (getParam (e.queryStringParameters.getD []) "interval" "1d"))
      (batchTickers (e.queryStringParameters.getD []))
    unfold batchAccOf runBatch at hzero ⊢
    dsimp only at hs hfl hzero ⊢
    omega
  · intro hist
    have hs := fetchData_stocks_len_eq hist TICKERS_DEFAULT { stocks := [], failed_tickers := [] }
    unfold fetch_data
    dsimp only
    by_cases h0 : 0 <
        (TICKERS_DEFAULT.foldl (fetchDataStep hist)
          { stocks := [], failed_tickers := [] }).stocks.length
    · rw [if_pos h0]
      constructor
      · constructor
        · intro h; omega
        · intro h; omega
      · exact ⟨fun _ => h0, fun _ => rfl⟩
    · rw [if_neg h0]
      constructor
      · constructor
        · intro _; omega
        · intro _; rfl
      · constructor
        · intro h; omega
        · intro h; exact absurd h h0

/-- C5 witness: with an oracle that fails every ticker, the default
batch route returns status 500 and the offline fetcher exits 1; the
all-failure summary shows 0 successes and 5 failures of 5. -/
theorem C5_batch_failure_signal_witness :
    (lambda_handler (fun _ _ => none) (fun _ => []) "2025-01-01 00:00:00"
        { httpMethod := some "GET", requestContextMethod := none,
          queryStringParameters := none }).statusCode = 500 ∧
    (fetch_data (fun _ => none)).2 = 1 := by
  have h := C5_batch_failure_signal (fun _ _ => none) (fun _ => []) "2025-01-01 00:00:00"
    { httpMethod := some "GET", requestContextMethod := none, queryStringParameters := none }
    (by decide) (by decide) (by decide) (by decide)
  exact ⟨h.1.2 rfl, (h.2.2.2.2 (fun _ => none)).1.2 rfl⟩

/-- C10: in every batch summary — the router's default-route response
body and the offline fetcher's output — `successful + failed =
total_tickers` and `failed` equals the length of `failed_tickers`;
`total_tickers` is the length of the ticker dict, whose keys are the
distinct normalized tickers (building the dict collapses duplicates and
preserves membership). -/
theorem C10_summary_arithmetic :
    (∀ (f : String → String → Option FetchResult) (iv : String) (ts : List (String × String)),
       (runBatch f iv ts).successful + (runBatch f iv ts).failed = ts.length ∧
       (runBatch f iv ts).failed = (runBatch f iv ts).failed_tickers.length ∧
       (runBatch f iv ts).successful = (runBatch f iv ts).stocks.length) ∧
    (∀ l : List String, (buildTickerDict l).Nodup ∧ ∀ t, t ∈ buildTickerDict l ↔ t ∈ l) ∧
    (∀ s : String, (parseTickers s).map Prod.fst
       = buildTickerDict ((((s.splitOn ",").map String.trim).filter
           (fun t => t ≠ "")).map normalizeTicker)) ∧
    (∀ qp : List (String × String), ((batchTickers qp).map Prod.fst).Nodup) ∧
    (∀ hist, (fetch_data hist).1.summary.successful + (fetch_data hist).1.summary.failed
         = (fetch_data hist).1.summary.total_tickers ∧
       (fetch_data hist).1.summary.failed
         = (fetch_data hist).1.summary.failed_tickers.length) ∧
    (∀ (f : String → String → Option FetchResult) (sFn : String → List SearchResult)
       (now : String) (e : Event),
       resolveMethod e ≠ some "OPTIONS" →
       getParam (e.queryStringParameters.getD []) "action" "get_stocks" ≠ "search" →
       getParam (e.queryStringParameters.getD []) "action" "get_stocks" ≠ "get_stock" →
       getParam (e.queryStringParameters.getD []) "interval" "1d" ∈ valid_intervals →
       ∀ bo, (lambda_handler f sFn now e).body = Body.batch bo →
         bo.summary.successful + bo.summary.failed = bo.summary.total_tickers ∧
         bo.summary.failed = bo.summary.failed_tickers.length ∧
         bo.summary.total_tickers = (batchTickers (e.queryStringParameters.getD [])).length) := by
  have hrun : ∀ (f : String → String → Option FetchResult) (iv : String)
      (ts : List (String × String)),
      (runBatch f iv ts).successful + (runBatch f iv ts).failed = ts.length ∧
      (runBatch f iv ts).failed = (runBatch f iv ts).failed_tickers.length ∧
      (runBatch f iv ts).successful = (runBatch f iv ts).stocks.length := by
    intro f iv ts
    have hs := batch_successful_eq f iv ts
      { stocks := [], successful := 0, failed := 0, failed_tickers := [] }
    have hfl := batch_failed_eq f iv ts
      { stocks := [], successful := 0, failed := 0, failed_tickers := [] }
    have hst := batch_stocks_len_eq f iv ts
      { stocks := [], successful := 0, failed := 0, failed_tickers := [] }
    have hft := batch_failed_tickers_len_eq f iv ts
      { stocks := [], successful := 0, failed := 0, failed_tickers := [] }
    have hsum := countP_isSome_add_isNone (fun tn => f tn.1 iv) ts
    unfold runBatch
    dsimp only at hs hfl hst hft ⊢
    simp only [List.length_nil] at hs hfl hst hft
    omega
  refine ⟨hrun, ?_, ?_, ?_, ?_, ?_⟩
  · intro l
    refine ⟨dict_foldl_nodup l [] List.nodup_nil, fun t => ?_⟩
    rw [show buildTickerDict l = l.foldl dictInsert [] from rfl, dict_foldl_mem]
    simp
  · intro s
    unfold parseTickers
    rw [List.map_map]
    rw [show (Prod.fst ∘ fun t : String => (t, t)) = id from rfl, List.map_id]
  · intro qp
    unfold batchTickers
    by_cases h : getParam qp "tickers" "" ≠ ""
    · rw [if_pos h]
      unfold parseTickers
      rw [List.map_map]
      rw [show (Prod.fst ∘ fun t : String => (t, t)) = id from rfl, List.map_id]
      exact dict_foldl_nodup _ [] List.nodup_nil
    · rw [if_neg h]
      decide
  · intro hist
    have hst := fetchData_stocks_len_eq hist TICKERS_DEFAULT { stocks := [], failed_tickers := [] }
    have hft := fetchData_failed_len_eq hist TICKERS_DEFAULT { stocks := [], failed_tickers := [] }
    have hsum := countP_isSome_add_isNone (fun tn : String × String => fetchOneTicker hist tn.1)
      TICKERS_DEFAULT
    unfold fetch_data
    dsimp only at hst hft ⊢
    simp only [List.length_nil] at hst hft
    constructor
    · omega
    · rfl
  · intro f sFn now e hm ha1 ha2 hi bo hbo
    rcases lambda_handler_dispatch f sFn now e hm with ⟨_, _, hd3⟩
    rw [hd3 ha1 ha2, handleBatch_eq f now _ hi] at hbo
    dsimp only at hbo
    injection hbo with hbo
    subst hbo
    rcases hrun f (getParam (e.queryStringParameters.getD []) "interval" "1d")
      (batchTickers (e.queryStringParameters.getD [])) with ⟨h1, h2, _⟩
    exact ⟨h1, h2, rfl⟩

/-- C10 witness: the all-failure default batch body has `0 + 5 = 5` and
`failed = |failed_tickers|`. -/
theorem C10_summary_arithmetic_witness :
    (batchOutOf (fun _ _ => none) "2025-01-01 00:00:00" []).summary.successful
        + (batchOutOf (fun _ _ => none) "2025-01-01 00:00:00" []).summary.failed
      = (batchOutOf (fun _ _ => none) "2025-01-01 00:00:00" []).summary.total_tickers ∧
    (batchOutOf (fun _ _ => none) "2025-01-01 00:00:00" []).summary.failed
      = (batchOutOf (fun _ _ => none) "2025-01-01 00:00:00" []).summary.failed_tickers.length := by
  have h := C10_summary_arithmetic.2.2.2.2.2 (fun _ _ => none) (fun _ => [])
    "2025-01-01 00:00:00"
    { httpMethod := some "GET", requestContextMethod := none, queryStringParameters := none }
    (by decide) (by decide) (by decide) (by decide)
    (batchOutOf (fun _ _ => none) "2025-01-01 00:00:00" []) rfl
  exact ⟨h.1, h.2.1⟩

theorem summaryV8_single (p : PVal) :
    summaryV8 [p] = some { current_price := p, year_high := p, year_low := p,
                           year_change_pct := PVal.num 0, data_points := 1 } := rfl

theorem summaryV8_cons_num (p r : ℚ) (rs : List ℚ) (hp : p ≠ 0) :
    summaryV8 ((p :: r :: rs).map PVal.num)
      = some { current_price := PVal.num (List.getLastD (r :: rs) p)
               year_high := PVal.num ((r :: rs).foldl max p)
               year_low := PVal.num ((r :: rs).foldl min p)
               year_change_pct :=
                 PVal.num (round2 ((List.getLastD (r :: rs) p - p) / p * 100))
               data_points := rs.length + 2 } := by
  rw [List.map_cons]
  unfold summaryV8
  dsimp only
  rw [if_neg (by simp : ¬(List.map PVal.num (r :: rs) = []))]
  rw [getLastD_map_pnum, pymax_map_num, pymin_map_num]
  simp only [pySub, pyDiv, pyMul, pyRound2]
  rw [if_neg hp]
  simp [List.length_map]

theorem summaryV8_cons_zero (r : ℚ) (rs : List ℚ) :
    summaryV8 ((0 :: r :: rs : List ℚ).map PVal.num) = none := by
  rw [List.map_cons]
  unfold summaryV8
  dsimp only
  rw [if_neg (by simp : ¬(List.map PVal.num (r :: rs) = []))]
  rw [getLastD_map_pnum]
  simp [pySub, pyDiv]

theorem summaryFetch_zero (rest : List ℚ) : summaryFetch (0 :: rest) = none := by
  unfold summaryFetch
  dsimp only
  rw [if_pos rfl]

theorem summaryFetch_single (p : ℚ) (hp : p ≠ 0) :
    summaryFetch [p] = some { current_price := PVal.num p, year_high := PVal.num p,
                              year_low := PVal.num p, year_change_pct := PVal.num 0,
                              data_points := 1 } := by
  unfold summaryFetch
  dsimp only
  rw [if_neg hp]
  rw [show (List.getLastD [] p - p) / p * 100 = 0 by simp, round2_zero]
  rfl

theorem summaryFetch_cons (p r : ℚ) (rs : List ℚ) (hp : p ≠ 0) :
    summaryFetch (p :: r :: rs)
      = some { current_price := PVal.num (List.getLastD (r :: rs) p)
               year_high := PVal.num ((r :: rs).foldl max p)
               year_low := PVal.num ((r :: rs).foldl min p)
               year_change_pct :=
                 PVal.num (round2 ((List.getLastD (r :: rs) p - p) / p * 100))
               data_points := (r :: rs).length + 1 } := by
  unfold summaryFetch
  dsimp only
  rw [if_neg hp]

/-- C1: whenever either fetcher's reduce step produces a summary from a
non-empty valid-price sequence, `year_change_pct` is 0 for a single
point and `round(((last - first) / first) * 100, 2)` otherwise; on the
close-price sequence `[100, 105, 95, 110, 108]` both reduce steps give
`current_price = 108`, `year_high = 110`, `year_low = 95`,
`year_change_pct = 8`, `data_points = 5`. -/
theorem C1_year_change_pct (p : ℚ) (rest : List ℚ) :
    (∀ s, summaryV8 ((p :: rest).map PVal.num) = some s →
       (rest = [] → s.year_change_pct = PVal.num 0) ∧
       (rest ≠ [] → s.year_change_pct
          = PVal.num (round2 ((List.getLastD rest p - p) / p * 100)))) ∧
    (∀ s, summaryFetch (p :: rest) = some s →
       (rest = [] → s.year_change_pct = PVal.num 0) ∧
       (rest ≠ [] → s.year_change_pct
          = PVal.num (round2 ((List.getLastD rest p - p) / p * 100)))) ∧
    summaryV8 (([100, 105, 95, 110, 108] : List ℚ).map PVal.num)
      = some { current_price := PVal.num 108, year_high := PVal.num 110,
               year_low := PVal.num 95, year_change_pct := PVal.num 8,
               data_points := 5 } ∧
    summaryFetch [100, 105, 95, 110, 108]
      = some { current_price := PVal.num 108, year_high := PVal.num 110,
               year_low := PVal.num 95, year_change_pct := PVal.num 8,
               data_points := 5 } := by
  refine ⟨?_, ?_, ?_, ?_⟩
  · intro s hs
    constructor
    · intro hrest
      subst hrest
      rw [show (([p] : List ℚ).map PVal.num) = [PVal.num p] from rfl,
        summaryV8_single] at hs
      injection hs with hs
      rw [← hs]
    · intro hrest
      rcases rest with _ | ⟨r, rs⟩
      · exact absurd rfl hrest
      · by_cases hp : p = 0
        · subst hp
          rw [summaryV8_cons_zero r rs] at hs
          cases hs
        · rw [summaryV8_cons_num p r rs hp] at hs
          injection hs with hs
          rw [← hs]
  · intro s hs
    have hp : p ≠ 0 := by
      intro h0
      subst h0
      rw [summaryFetch_zero rest] at hs
      cases hs
    constructor
    · intro hrest
      subst hrest
      rw [summaryFetch_single p hp] at hs
      injection hs with hs
      rw [← hs]
    · intro hrest
      rcases rest with _ | ⟨r, rs⟩
      · exact absurd rfl hrest
      · rw [summaryFetch_cons p r rs hp] at hs
        injection hs with hs
        rw [← hs]
  · rw [summaryV8_cons_num 100 105 [95, 110, 108] (by norm_num)]
    have hc : round2 ((List.getLastD ([105, 95, 110, 108] : List ℚ) 100 - 100) / 100 * 100)
        = 8 := by
      rw [show (List.getLastD ([105, 95, 110, 108] : List ℚ) 100 - 100) / 100 * 100
          = 8 by norm_num [List.getLastD]]
      unfold round2 roundHalfEven
      norm_num
    rw [hc]
    norm_num [List.getLastD, List.foldl, max_def, min_def]
  · rw [summaryFetch_cons 100 105 [95, 110, 108] (by norm_num)]
    have hc : round2 ((List.getLastD ([105, 95, 110, 108] : List ℚ) 100 - 100) / 100 * 100)
        = 8 := by
      rw [show (List.getLastD ([105, 95, 110, 108] : List ℚ) 100 - 100) / 100 * 100
          = 8 by norm_num [List.getLastD]]
      unfold round2 roundHalfEven
      norm_num
    rw [hc]
    norm_num [List.getLastD, List.foldl, max_def, min_def]

/-- C1 witness: the summary produced from `[100, 105, 95, 110, 108]`
has `year_change_pct` equal to the rounded percent-change formula
(= 8), as obtained by applying the theorem at that concrete input. -/
theorem C1_year_change_pct_witness :
    PVal.num 8
        = PVal.num (round2 ((List.getLastD ([105, 95, 110, 108] : List ℚ) 100 - 100)
            / 100 * 100)) ∧
    summaryV8 (([100, 105, 95, 110, 108] : List ℚ).map PVal.num)
      = some { current_price := PVal.num 108, year_high := PVal.num 110,
               year_low := PVal.num 95, year_change_pct := PVal.num 8,
               data_points := 5 } := by
  have h := C1_year_change_pct 100 [105, 95, 110, 108]
  exact ⟨(h.1 _ h.2.2.1).2 (by simp), h.2.2.1⟩

/-- C4: on any valid-price sequence producible by both pipelines — the
offline fetcher's kept prices are always nonzero (zero closes are falsy
and dropped), so the shared domain is the nonzero sequences — the
router's reduce step and the offline fetcher's reduce step produce
identical summary statistics.  (On a sequence whose first price is zero
the two differ only in that neither produces a summary for length > 1
while for length 1 the router still would; such a sequence is not
producible by the offline fetcher.) -/
theorem C4_reduce_equivalence (qs : List ℚ) (hz : ∀ q ∈ qs, q ≠ 0) :
    summaryV8 (qs.map PVal.num) = summaryFetch qs := by
  rcases qs with _ | ⟨p, rest⟩
  · rfl
  · have hp : p ≠ 0 := hz p (List.mem_cons_self _ _)
    rcases rest with _ | ⟨r, rs⟩
    · rw [show (([p] : List ℚ).map PVal.num) = [PVal.num p] from rfl, summaryV8_single,
        summaryFetch_single p hp]
    · rw [summaryV8_cons_num p r rs hp, summaryFetch_cons p r rs hp]
      simp [List.length_cons]

/-- C4 witness: both reduce steps agree on the concrete nonzero sequence
`[100, 105]`. -/
theorem C4_reduce_equivalence_witness :
    summaryV8 (([100, 105] : List ℚ).map PVal.num) = summaryFetch [100, 105] :=
  C4_reduce_equivalence [100, 105] (by norm_num)

/-- C2 counterexample: the claim asserts that a price array with one
NaN entry amid N valid entries yields exactly N PricePoints, all
non-NaN.  For the router's fetcher with timestamps `[0, 1]` and prices
`[NaN, 100]` (N = 1), the loop drops only `None`: the chart is
`[(0, NaN), (1, 100)]`, which has 2 entries and contains a NaN value. -/
theorem C2_counterexample :
    ¬ ((buildChartV8 [0, 1] [some PVal.nan, some (PVal.num 100)]).length = 1 ∧
       ∀ pt ∈ buildChartV8 [0, 1] [some PVal.nan, some (PVal.num 100)],
         pt.2 ≠ PVal.nan) := by
  intro h
  have h2 : (buildChartV8 [0, 1] [some PVal.nan, some (PVal.num 100)]).length = 2 := rfl
  have h1 := h.1
  omega

theorem filterMap_some_pnum (l : List ℚ) :
    List.filterMap (fun q => some (PVal.num q)) l = l.map PVal.num := by
  induction l with
  | nil => rfl
  | cons q l ih => simp [List.filterMap_cons, ih]

/-- C2 amended: the router's fetcher drops exactly the null entries (a
NaN entry is NOT dropped): with timestamps aligned to the price array,
one null amid N non-null numeric entries yields exactly those N values
in order, and the summary's year_high / year_low are the maximum /
minimum over exactly the valid values.  The offline fetcher drops NaN
and zero closes: one NaN amid N nonzero numeric closes yields exactly
those N values. -/
theorem C2_amended_valid_points (ts : List ℤ) (a b : List ℚ)
    (hlen : ts.length = a.length + 1 + b.length) :
    ((buildChartV8 ts (a.map (fun q => some (PVal.num q))
          ++ none :: b.map (fun q => some (PVal.num q)))).map Prod.snd
        = (a ++ b).map PVal.num) ∧
    ((buildChartV8 ts (a.map (fun q => some (PVal.num q))
          ++ none :: b.map (fun q => some (PVal.num q)))).length
        = a.length + b.length) ∧
    (∀ p ps s, summaryV8 ((p :: ps).map PVal.num) = some s →
       s.year_high = PVal.num (ps.foldl max p) ∧
       s.year_low = PVal.num (ps.foldl min p) ∧
       ps.foldl max p ∈ p :: ps ∧ (∀ x ∈ p :: ps, x ≤ ps.foldl max p) ∧
       ps.foldl min p ∈ p :: ps ∧ (∀ x ∈ p :: ps, ps.foldl min p ≤ x)) ∧
    (∀ rows : List (ℤ × PVal), (∀ q ∈ a ++ b, q ≠ 0) →
       rows.map Prod.snd = a.map PVal.num ++ PVal.nan :: b.map PVal.num →
       (buildChartFetch rows).map Prod.snd = a ++ b ∧
       (buildChartFetch rows).length = a.length + b.length) := by
  have hcs : (a.map (fun q => some (PVal.num q))
      ++ none :: b.map (fun q => some (PVal.num q))).length = a.length + 1 + b.length := by
    simp
    omega
  have hmap : (buildChartV8 ts (a.map (fun q => some (PVal.num q))
      ++ none :: b.map (fun q => some (PVal.num q)))).map Prod.snd
      = (a ++ b).map PVal.num := by
    rw [buildChartV8_map_snd ts _ (by rw [hcs, hlen])]
    simp only [List.reduceOption, List.filterMap_append, List.filterMap_cons,
      List.filterMap_map, Function.id_comp, id_eq]
    rw [filterMap_some_pnum, filterMap_some_pnum]
    simp
  refine ⟨hmap, ?_, ?_, ?_⟩
  · have := congrArg List.length hmap
    simpa using this
  · intro p ps s hs
    refine ⟨?_, ?_, foldl_max_mem p ps, foldl_max_le p ps, foldl_min_mem p ps,
      foldl_min_le p ps⟩
    · rcases ps with _ | ⟨r, rs⟩
      · rw [show (([p] : List ℚ).map PVal.num) = [PVal.num p] from rfl,
          summaryV8_single] at hs
        injection hs with hs
        subst hs
        rfl
      · by_cases hp : p = 0
        · subst hp
          rw [summaryV8_cons_zero r rs] at hs
          cases hs
        · rw [summaryV8_cons_num p r rs hp] at hs
          injection hs with hs
          subst hs
          rfl
    · rcases ps with _ | ⟨r, rs⟩
      · rw [show (([p] : List ℚ).map PVal.num) = [PVal.num p] from rfl,
          summaryV8_single] at hs
        injection hs with hs
        subst hs
        rfl
      · by_cases hp : p = 0
        · subst hp
          rw [summaryV8_cons_zero r rs] at hs
          cases hs
        · rw [summaryV8_cons_num p r rs hp] at hs
          injection hs with hs
          subst hs
          rfl
  · intro rows hz hrows
    have hza : ∀ q ∈ a, q ≠ 0 := fun q hq => hz q (List.mem_append_left _ hq)
    have hzb : ∀ q ∈ b, q ≠ 0 := fun q hq => hz q (List.mem_append_right _ hq)
    have hsnd : (buildChartFetch rows).map Prod.snd = a ++ b := by
      rw [buildChartFetch_map_snd, hrows]
      rw [List.filterMap_append, List.filterMap_cons]
      rw [show fetchKeep PVal.nan = none from rfl]
      rw [filterMap_fetchKeep_map_num a hza, filterMap_fetchKeep_map_num b hzb]
    refine ⟨hsnd, ?_⟩
    have := congrArg List.length hsnd
    simpa using this

/-- C2 witness: timestamps `[0, 1, 2]` with prices `[100, null, 102]`
(one null amid N = 2 valid entries) yield exactly the 2 valid values for
the router's fetcher, and closes `[100, NaN, 102]` yield them for the
offline fetcher. -/
theorem C2_amended_valid_points_witness :
    (buildChartV8 [0, 1, 2] [some (PVal.num 100), none, some (PVal.num 102)]).map Prod.snd
        = [PVal.num 100, PVal.num 102] ∧
    (buildChartFetch [(0, PVal.num 100), (1, PVal.nan), (2, PVal.num 102)]).map Prod.snd
        = [(100 : ℚ), 102] := by
  have h := C2_amended_valid_points [0, 1, 2] [100] [102] (by simp)
  constructor
  · have h1 := h.1
    simpa using h1
  · have h4 := (h.2.2.2 [(0, PVal.num 100), (1, PVal.nan), (2, PVal.num 102)]
      (by norm_num) (by simp)).1
    simpa using h4
